import Mathlib

/-!
Verification of the routing/orchestration core of the AI job-assistance
repository: the supervisor dispatch loop built in agents.py, the
decision-normalization transform flatten_output, the worker adapter
agent_node, and the worker capabilities extract_cv (tools.py, data_loader.py)
and get_job_ids / job_pipeline (search.py, tools.py).

Python values that flow through the supervisor chain are dictionaries whose
values are either strings or nested dictionaries; they are embedded as
association lists over an inductive value type.  External effects (the PDF
loader, the LinkedIn client) are passed in as explicit parameters, with
Except modelling a raised exception.
-/

namespace JobAgent

/-- A Python value as it appears in the supervisor-chain dictionaries:
either a string or a nested dictionary (association list, first binding of a
key wins on lookup, as in a Python dict without duplicate keys). -/
inductive PyVal where
  | str : String → PyVal
  | dict : List (String × PyVal) → PyVal

/-- Lookup of a key in an embedded Python dictionary. -/
def dictLookup : List (String × PyVal) → String → Option PyVal
  | [], _ => none
  | (k, v) :: rest, key => if k == key then some v else dictLookup rest key

/-- Removal of a key, as performed by Python dict.pop: all other bindings
keep their relative order. -/
def popKey (d : List (String × PyVal)) (key : String) : List (String × PyVal) :=
  d.filter (fun p => p.1 != key)

/-- Writing one key, as Python assignment d[k] = v: an existing binding is
overwritten in place, a new binding is appended at the end. -/
def setKey (d : List (String × PyVal)) (key : String) (v : PyVal) :
    List (String × PyVal) :=
  if d.any (fun p => p.1 == key) then
    d.map (fun p => if p.1 == key then (key, v) else p)
  else
    d ++ [(key, v)]

/-- Python dict.update(src): the bindings of src are written into dst one by
one, in the order of src. -/
def dictUpdate (dst : List (String × PyVal)) :
    List (String × PyVal) → List (String × PyVal)
  | [] => dst
  | (k, v) :: rest => dictUpdate (setKey dst k v) rest

/-- agents.py, flatten_output: if the parsed oracle output contains an
inner dictionary under the key args, that inner dictionary is popped and its
bindings merged into the top level; otherwise the data is returned
unchanged.  This is the normalization applied after JsonOutputToolsParser on
the Groq / Llama backend path of define_graph. -/
def flatten_output (data : List (String × PyVal)) : List (String × PyVal) :=
  match dictLookup data "args" with
  | some (PyVal.dict args) => dictUpdate (popKey data "args") args
  | _ => data

/-- One message of the accumulated chat history, as produced by
HumanMessage(content=..., name=...): the name is absent on the initial user
message and carries the worker name on worker-produced messages. -/
structure Turn where
  name : Option String
  content : String
deriving Repr, DecidableEq

/-- agents.py, AgentState: the state shared across all graph nodes.  The
input and next keys of the TypedDict may be absent (the caller in app.py
seeds only messages), hence the Option. -/
structure AgentState where
  input : Option String
  messages : List Turn
  next : Option String
deriving Repr, DecidableEq

/-- A partial state update as returned by a graph node: messages are
accumulated with list append (the operator.add annotation on
AgentState.messages), while a some value for input or next overwrites that
key. -/
structure NodeUpdate where
  messages : List Turn
  input : Option String
  next : Option String
deriving Repr, DecidableEq

/-- Application of a node's partial update to the shared state: the
messages channel appends (operator.add), the other keys are overwritten only
when the update carries a value for them. -/
def applyUpdate (st : AgentState) (u : NodeUpdate) : AgentState :=
  { input := match u.input with
      | some v => some v
      | none => st.input,
    messages := st.messages ++ u.messages,
    next := match u.next with
      | some v => some v
      | none => st.next }

/-- agents.py, agent_node: the uniform worker adapter.  It invokes the
underlying agent on the current state and returns a partial update holding
exactly one message, attributed to the worker's name; the invocation result
is abstracted as the function agentInvoke. -/
def agent_node (state : AgentState) (agentInvoke : AgentState → String)
    (name : String) : NodeUpdate :=
  { messages := [⟨some name, agentInvoke state⟩], input := none, next := none }

/-- agents.py, define_graph: the worker members of the graph. -/
def members : List String := ["Analyzer", "Generator", "Searcher"]

/-- agents.py, define_graph: the closed routing-decision set, FINISH plus
the workers. -/
def options : List String := "FINISH" :: members

/-- agents.py, define_graph: the conditional routing map built from the
members, with FINISH mapped to the END sentinel; a decision outside the map
has no successor (none), which the runtime treats as a fatal routing
error. -/
def conditionalMap (decision : String) : Option String :=
  if decision ∈ members then some decision
  else if decision = "FINISH" then some "END"
  else none

/-- The partial update written by the supervisor node: the parsed (and, on
the Groq path, flattened) oracle output is the dictionary binding next to
the decision, so only the next key of the shared state is written. -/
def supervisorUpdate (decision : String) : NodeUpdate :=
  { messages := [], input := none, next := some decision }

/-- Modelled from the spec: the control states of the dispatch loop
executing the compiled graph (the graph runtime itself is a library external
to this repository).  AWAITING_DECISION and RUNNING_WORKER are the two live
states, FINISHED and ABORTED (with its reason) the terminal ones. -/
inductive Phase where
  | awaiting : Phase
  | running : String → Phase
  | finished : Phase
  | aborted : String → Phase
deriving Repr, DecidableEq

/-- True exactly on the two terminal control states. -/
def Phase.isTerminal : Phase → Bool
  | Phase.finished => true
  | Phase.aborted _ => true
  | _ => false

/-- True exactly on the aborted control state. -/
def Phase.isAborted : Phase → Bool
  | Phase.aborted _ => true
  | _ => false

/-- A configuration of the dispatch loop: control state, shared state, and
the worker-step counter guarded by the configured ceiling. -/
structure LoopState where
  phase : Phase
  state : AgentState
  steps : Nat
deriving Repr, DecidableEq

/-- Modelled from the spec: one transition of the dispatch loop driving the
graph of define_graph.  In AWAITING_DECISION the supervisor consults the
oracle (abstracted as a function of the accumulated messages), writes its
decision into the next key, and routes through the conditional map: FINISH
reaches FINISHED, a worker name moves to RUNNING_WORKER unless the step
ceiling would be exceeded, and a decision outside the map is the fatal
invalid-decision abort.  In RUNNING_WORKER the chosen worker adapter
agent_node runs (its underlying agent call abstracted as workerOut) and its
single-message update is applied before returning to AWAITING_DECISION.
Terminal states have no outgoing transition. -/
def loopStep (oracle : List Turn → String)
    (workerOut : String → AgentState → String) (stepLimit : Nat) :
    LoopState → LoopState
  | ⟨Phase.awaiting, st, n⟩ =>
      let d := oracle st.messages
      let st' := applyUpdate st (supervisorUpdate d)
      match conditionalMap d with
      | some w =>
          if w = "END" then ⟨Phase.finished, st', n⟩
          else if stepLimit < n + 1 then
            ⟨Phase.aborted "step limit reached", st', n⟩
          else ⟨Phase.running w, st', n + 1⟩
      | none => ⟨Phase.aborted "invalid decision", st', n⟩
  | ⟨Phase.running w, st, n⟩ =>
      ⟨Phase.awaiting, applyUpdate st (agent_node st (workerOut w) w), n⟩
  | ⟨Phase.finished, st, n⟩ => ⟨Phase.finished, st, n⟩
  | ⟨Phase.aborted r, st, n⟩ => ⟨Phase.aborted r, st, n⟩

/-- Iteration of the dispatch loop for a given number of transitions. -/
def runLoop (oracle : List Turn → String)
    (workerOut : String → AgentState → String) (stepLimit : Nat) :
    Nat → LoopState → LoopState
  | 0, s => s
  | Nat.succ n, s => runLoop oracle workerOut stepLimit n
      (loopStep oracle workerOut stepLimit s)

/-- app.py, conversational_chat: the stream call seeds the graph with only
the messages key, holding the single unattributed user message, and the
loop starts at the supervisor entry point with the step counter at zero. -/
def initLoop (query : String) : LoopState :=
  ⟨Phase.awaiting, ⟨none, [⟨none, query⟩], none⟩, 0⟩

/-- app.py, conversational_chat: the configured recursion limit passed to
graph.stream. -/
def recursion_limit : Nat := 100

/-- data_loader.py, load_cv: the PDF loader (an external effect, passed in
as loaderResult, where an error is a raised exception) is wrapped in a
handler that concatenates the page contents on success and swallows any
exception, returning the empty string.  The function itself never raises. -/
def load_cv (loaderResult : Except String (List String)) : String :=
  match loaderResult with
  | Except.ok pages => String.join pages
  | Except.error _ => ""

/-- tools.py, extract_cv: builds the result dictionary around load_cv.  The
argument is the outcome of the load_cv call inside the try block: on a
normal return the content key holds the returned text, and only if that
call itself raised does the except branch write the distinct error-marker
string. -/
def extract_cv (loadOutcome : Except String String) : List (String × PyVal) :=
  match loadOutcome with
  | Except.ok text => [("content", PyVal.str text)]
  | Except.error _ =>
      [("content", PyVal.str "Error: Could not extract CV content")]

/-- tools.py, extract_cv composed with data_loader.py, load_cv: since
load_cv catches every exception of the loader and returns normally, the
try block of extract_cv always observes a normal return of load_cv. -/
def cv_extraction_path (loaderResult : Except String (List String)) :
    List (String × PyVal) :=
  extract_cv (Except.ok (load_cv loaderResult))

/-- search.py, get_job_type: the mapping from human-readable job types to
the single-letter codes, looked up on the lowercased argument. -/
def get_job_type (job_type : String) : Option String :=
  List.lookup job_type.toLower
    [("full-time", "F"), ("contract", "C"), ("part-time", "P"),
     ("temporary", "T"), ("internship", "I"), ("volunteer", "V"),
     ("other", "O")]

/-- Whether the pattern list is an initial segment of the character
list. -/
def leadsWith : List Char → List Char → Bool
  | [], _ => true
  | _ :: _, [] => false
  | p :: ps, c :: cs => p == c && leadsWith ps cs

/-- The fields of a character list between non-overlapping leftmost
occurrences of the separator, accumulating the current field in reverse.
The fuel argument bounds the recursion; instantiated with the length of the
text it is never exhausted, since every step consumes at least one
character. -/
def splitFields (sep : List Char) : Nat → List Char → List Char → List (List Char)
  | _, acc, [] => [acc.reverse]
  | 0, acc, rest => [acc.reverse ++ rest]
  | Nat.succ fuel, acc, c :: cs =>
      if leadsWith sep (c :: cs) then
        acc.reverse :: splitFields sep fuel [] (List.drop (sep.length - 1) cs)
      else
        splitFields sep fuel (c :: acc) cs

/-- Python str.split(sep) for the non-empty separators used by the code:
the maximal fields of s between non-overlapping leftmost occurrences of
sep.  In particular the separator occurs in s exactly when the result has
at least two fields, which also models the Python substring test
sep in s. -/
def pySplit (s sep : String) : List String :=
  if sep.data = [] then [s]
  else (splitFields sep.data s.data.length [] s.data).map (fun cs => String.mk cs)

/-- One job posting as returned by the search backend: only the
trackingUrn key is consulted by the extraction, and it may be absent. -/
structure JobPosting where
  trackingUrn : Option String
deriving Repr, DecidableEq

/-- The parameters forwarded to the external search call of
search.py, get_job_ids. -/
structure SearchParams where
  keywords : String
  job_type : Option String
  location_name : String
  limit : Nat
deriving Repr, DecidableEq

/-- search.py, get_job_ids, lines 133-137: the list comprehension keeping
the postings whose trackingUrn key is present and contains the separator
jobPosting:, each mapped to field 1 of splitting the urn on that
separator. -/
def extractJobIds (job_postings : List JobPosting) : List String :=
  job_postings.filterMap (fun job =>
    match job.trackingUrn with
    | some urn =>
        if (pySplit urn "jobPosting:").length ≥ 2 then
          some ((pySplit urn "jobPosting:").getD 1 "")
        else none
    | none => none)

/-- The predicate of the comprehension guard of get_job_ids: the
trackingUrn key is present and the separator occurs in it (the Python
substring test, expressed through the split producing at least two
fields). -/
def keepsPosting (job : JobPosting) : Bool :=
  match job.trackingUrn with
  | some urn => (pySplit urn "jobPosting:").length ≥ 2
  | none => false

/-- The value a kept posting is mapped to in get_job_ids: field 1 of the
split, i.e. the text strictly between the first occurrence of the
separator and the next occurrence (everything after it when it occurs
once). -/
def postingId (job : JobPosting) : String :=
  match job.trackingUrn with
  | some urn => (pySplit urn "jobPosting:").getD 1 ""
  | none => ""

/-- The mapping as the claim words it (a second definition following the
claim, for comparison with the split-based source behaviour): the whole
text after the first occurrence of the separator jobPosting:. -/
def textAfterUrn (urn : String) : String :=
  String.intercalate "jobPosting:" ((pySplit urn "jobPosting:").drop 1)

/-- search.py, get_job_ids: if the module-level client failed to
initialize (api is None), the function raises before the try block; with a
client, the external search call (abstracted as the api function, where an
error is a raised exception) is guarded by the handler returning the empty
list, and its postings are fed to the id extraction.  An Except.error
result models an exception leaving the function. -/
def get_job_ids (api : Option (SearchParams → Except String (List JobPosting)))
    (keywords : String) (location_name : String) (job_type : Option String)
    (limit : Nat) : Except String (List String) :=
  match api with
  | none => Except.error "LinkedIn API not initialized. Check credentials."
  | some search =>
      match search ⟨keywords, job_type.bind get_job_type, location_name, limit⟩ with
      | Except.ok job_postings => Except.ok (extractJobIds job_postings)
      | Except.error _ => Except.ok []

/-- tools.py, job_pipeline: get_job_ids followed by the per-id detail
fetch (get_job_details catches its own exceptions, so the fetch is
abstracted as a total function).  An exception of get_job_ids propagates
out of the tool. -/
def job_pipeline (api : Option (SearchParams → Except String (List JobPosting)))
    (fetchDetails : String → List (String × PyVal)) (keywords : String)
    (location_name : String) (job_type : Option String) (limit : Nat) :
    Except String (List (List (String × PyVal))) :=
  match get_job_ids api keywords location_name job_type limit with
  | Except.ok ids => Except.ok (ids.map fetchDetails)
  | Except.error e => Except.error e

/-- The routing invariant of the shared state: outside the aborted control
state, whatever value the next key holds lies in the closed decision set. -/
def NextInv (s : LoopState) : Prop :=
  s.phase.isAborted = false → ∀ v, s.state.next = some v → v ∈ options

/-! Helper lemmas about the dispatch loop. -/

theorem runLoop_succ (oracle : List Turn → String)
    (workerOut : String → AgentState → String) (stepLimit : Nat) (n : Nat)
    (s : LoopState) :
    runLoop oracle workerOut stepLimit (n + 1) s =
      runLoop oracle workerOut stepLimit n (loopStep oracle workerOut stepLimit s) :=
  rfl

theorem loopStep_of_terminal (oracle : List Turn → String)
    (workerOut : String → AgentState → String) (stepLimit : Nat)
    (s : LoopState) (h : s.phase.isTerminal = true) :
    loopStep oracle workerOut stepLimit s = s := by
  rcases s with ⟨ph, st, n⟩
  cases ph with
  | awaiting => simp [Phase.isTerminal] at h
  | running w => simp [Phase.isTerminal] at h
  | finished => rfl
  | aborted r => rfl

theorem runLoop_of_terminal (oracle : List Turn → String)
    (workerOut : String → AgentState → String) (stepLimit : Nat) (n : Nat)
    (s : LoopState) (h : s.phase.isTerminal = true) :
    runLoop oracle workerOut stepLimit n s = s := by
  induction n with
  | zero => rfl
  | succ n ih =>
      rw [runLoop_succ, loopStep_of_terminal oracle workerOut stepLimit s h]
      exact ih

theorem runLoop_aborted_terminal (oracle : List Turn → String)
    (workerOut : String → AgentState → String) (stepLimit : Nat) (n : Nat)
    (r : String) (st : AgentState) (k : Nat) :
    (runLoop oracle workerOut stepLimit n
      ⟨Phase.aborted r, st, k⟩).phase.isTerminal = true := by
  rw [runLoop_of_terminal oracle workerOut stepLimit n ⟨Phase.aborted r, st, k⟩ rfl]
  rfl

theorem runLoop_finished_terminal (oracle : List Turn → String)
    (workerOut : String → AgentState → String) (stepLimit : Nat) (n : Nat)
    (st : AgentState) (k : Nat) :
    (runLoop oracle workerOut stepLimit n
      ⟨Phase.finished, st, k⟩).phase.isTerminal = true := by
  rw [runLoop_of_terminal oracle workerOut stepLimit n ⟨Phase.finished, st, k⟩ rfl]
  rfl

theorem runLoop_zero (oracle : List Turn → String)
    (workerOut : String → AgentState → String) (stepLimit : Nat)
    (s : LoopState) :
    runLoop oracle workerOut stepLimit 0 s = s :=
  rfl

theorem loopStep_running_eq (oracle : List Turn → String)
    (workerOut : String → AgentState → String) (stepLimit : Nat) (w : String)
    (st : AgentState) (n : Nat) :
    loopStep oracle workerOut stepLimit ⟨Phase.running w, st, n⟩ =
      ⟨Phase.awaiting, applyUpdate st (agent_node st (workerOut w) w), n⟩ :=
  rfl

theorem loopStep_awaiting_invalid (oracle : List Turn → String)
    (workerOut : String → AgentState → String) (stepLimit : Nat)
    (st : AgentState) (n : Nat)
    (hd : conditionalMap (oracle st.messages) = none) :
    loopStep oracle workerOut stepLimit ⟨Phase.awaiting, st, n⟩ =
      ⟨Phase.aborted "invalid decision",
        applyUpdate st (supervisorUpdate (oracle st.messages)), n⟩ := by
  simp only [loopStep, hd]

theorem loopStep_awaiting_finish (oracle : List Turn → String)
    (workerOut : String → AgentState → String) (stepLimit : Nat)
    (st : AgentState) (n : Nat)
    (hd : conditionalMap (oracle st.messages) = some "END") :
    loopStep oracle workerOut stepLimit ⟨Phase.awaiting, st, n⟩ =
      ⟨Phase.finished,
        applyUpdate st (supervisorUpdate (oracle st.messages)), n⟩ := by
  simp [loopStep, hd]

theorem loopStep_awaiting_limit (oracle : List Turn → String)
    (workerOut : String → AgentState → String) (stepLimit : Nat)
    (st : AgentState) (n : Nat) (w : String)
    (hd : conditionalMap (oracle st.messages) = some w) (hne : w ≠ "END")
    (hl : stepLimit < n + 1) :
    loopStep oracle workerOut stepLimit ⟨Phase.awaiting, st, n⟩ =
      ⟨Phase.aborted "step limit reached",
        applyUpdate st (supervisorUpdate (oracle st.messages)), n⟩ := by
  simp only [loopStep, hd, if_neg hne, if_pos hl]

theorem loopStep_awaiting_run (oracle : List Turn → String)
    (workerOut : String → AgentState → String) (stepLimit : Nat)
    (st : AgentState) (n : Nat) (w : String)
    (hd : conditionalMap (oracle st.messages) = some w) (hne : w ≠ "END")
    (hl : ¬ stepLimit < n + 1) :
    loopStep oracle workerOut stepLimit ⟨Phase.awaiting, st, n⟩ =
      ⟨Phase.running w,
        applyUpdate st (supervisorUpdate (oracle st.messages)), n + 1⟩ := by
  simp only [loopStep, hd, if_neg hne, if_neg hl]

theorem mem_members_cases (d : String) (h : d ∈ members) :
    d = "Analyzer" ∨ d = "Generator" ∨ d = "Searcher" := by
  simpa [members] using h

theorem conditionalMap_cases (d : String) :
    conditionalMap d = none ∨
      (d ∈ members ∧ conditionalMap d = some d ∧ d ≠ "END") ∨
      (d = "FINISH" ∧ conditionalMap d = some "END") := by
  by_cases h1 : d ∈ members
  · refine Or.inr (Or.inl ⟨h1, by simp [conditionalMap, h1], ?_⟩)
    rcases mem_members_cases d h1 with h | h | h <;> simp [h]
  · by_cases h2 : d = "FINISH"
    · refine Or.inr (Or.inr ⟨h2, ?_⟩)
      subst h2
      decide
    · exact Or.inl (by simp [conditionalMap, h1, h2])

theorem loopStep_awaiting_state (oracle : List Turn → String)
    (workerOut : String → AgentState → String) (stepLimit : Nat)
    (st : AgentState) (n : Nat) :
    (loopStep oracle workerOut stepLimit ⟨Phase.awaiting, st, n⟩).state =
      applyUpdate st (supervisorUpdate (oracle st.messages)) := by
  rcases conditionalMap_cases (oracle st.messages) with hd | ⟨_, hd, hne⟩ | ⟨_, hd⟩
  · rw [loopStep_awaiting_invalid oracle workerOut stepLimit st n hd]
  · by_cases hl : stepLimit < n + 1
    · rw [loopStep_awaiting_limit oracle workerOut stepLimit st n _ hd hne hl]
    · rw [loopStep_awaiting_run oracle workerOut stepLimit st n _ hd hne hl]
  · rw [loopStep_awaiting_finish oracle workerOut stepLimit st n hd]

theorem loopStep_messages_extend (oracle : List Turn → String)
    (workerOut : String → AgentState → String) (stepLimit : Nat)
    (s : LoopState) :
    ∃ t, (loopStep oracle workerOut stepLimit s).state.messages =
      s.state.messages ++ t := by
  rcases s with ⟨ph, st, n⟩
  cases ph with
  | awaiting =>
      refine ⟨[], ?_⟩
      rw [loopStep_awaiting_state]
      rfl
  | running w => exact ⟨[⟨some w, workerOut w st⟩], rfl⟩
  | finished => exact ⟨[], (List.append_nil st.messages).symm⟩
  | aborted r => exact ⟨[], (List.append_nil st.messages).symm⟩

theorem runLoop_messages_extend (oracle : List Turn → String)
    (workerOut : String → AgentState → String) (stepLimit : Nat) (n : Nat)
    (s : LoopState) :
    ∃ t, (runLoop oracle workerOut stepLimit n s).state.messages =
      s.state.messages ++ t := by
  induction n generalizing s with
  | zero => exact ⟨[], (List.append_nil _).symm⟩
  | succ n ih =>
      obtain ⟨t₁, h₁⟩ := loopStep_messages_extend oracle workerOut stepLimit s
      obtain ⟨t₂, h₂⟩ := ih (loopStep oracle workerOut stepLimit s)
      exact ⟨t₁ ++ t₂, by rw [runLoop_succ, h₂, h₁, List.append_assoc]⟩

theorem loopStep_steps_le (oracle : List Turn → String)
    (workerOut : String → AgentState → String) (stepLimit : Nat)
    (s : LoopState) (h : s.steps ≤ stepLimit) :
    (loopStep oracle workerOut stepLimit s).steps ≤ stepLimit := by
  rcases s with ⟨ph, st, n⟩
  have hn : n ≤ stepLimit := h
  cases ph with
  | awaiting =>
      rcases conditionalMap_cases (oracle st.messages) with hd | ⟨_, hd, hne⟩ | ⟨_, hd⟩
      · rw [loopStep_awaiting_invalid oracle workerOut stepLimit st n hd]
        exact hn
      · by_cases hl : stepLimit < n + 1
        · rw [loopStep_awaiting_limit oracle workerOut stepLimit st n _ hd hne hl]
          exact hn
        · rw [loopStep_awaiting_run oracle workerOut stepLimit st n _ hd hne hl]
          exact (show n + 1 ≤ stepLimit by omega)
      · rw [loopStep_awaiting_finish oracle workerOut stepLimit st n hd]
        exact hn
  | running w => exact hn
  | finished => exact hn
  | aborted r => exact hn

theorem runLoop_steps_le (oracle : List Turn → String)
    (workerOut : String → AgentState → String) (stepLimit : Nat) (n : Nat)
    (s : LoopState) (h : s.steps ≤ stepLimit) :
    (runLoop oracle workerOut stepLimit n s).steps ≤ stepLimit := by
  induction n generalizing s with
  | zero => exact h
  | succ n ih =>
      rw [runLoop_succ]
      exact ih _ (loopStep_steps_le oracle workerOut stepLimit s h)

theorem runLoop_terminal_of_awaiting (oracle : List Turn → String)
    (workerOut : String → AgentState → String) (stepLimit : Nat) :
    ∀ m s, s.phase = Phase.awaiting → stepLimit ≤ s.steps + m →
      (runLoop oracle workerOut stepLimit (2 * m + 1) s).phase.isTerminal = true := by
  intro m
  induction m with
  | zero =>
      rintro ⟨ph, st, n⟩ hph hle
      cases hph
      have hn : stepLimit ≤ n := by
        have : stepLimit ≤ n + 0 := hle
        omega
      rw [show 2 * 0 + 1 = 0 + 1 from rfl, runLoop_succ, runLoop_zero]
      rcases conditionalMap_cases (oracle st.messages) with hd | ⟨_, hd, hne⟩ | ⟨_, hd⟩
      · rw [loopStep_awaiting_invalid oracle workerOut stepLimit st n hd]
        rfl
      · rw [loopStep_awaiting_limit oracle workerOut stepLimit st n _ hd hne (by omega)]
        rfl
      · rw [loopStep_awaiting_finish oracle workerOut stepLimit st n hd]
        rfl
  | succ m ih =>
      rintro ⟨ph, st, n⟩ hph hle
      cases hph
      have hn : stepLimit ≤ n + (m + 1) := hle
      rw [show 2 * (m + 1) + 1 = ((2 * m + 1) + 1) + 1 from by ring, runLoop_succ]
      rcases conditionalMap_cases (oracle st.messages) with hd | ⟨_, hd, hne⟩ | ⟨_, hd⟩
      · rw [loopStep_awaiting_invalid oracle workerOut stepLimit st n hd]
        exact runLoop_aborted_terminal _ _ _ _ _ _ _
      · by_cases hl : stepLimit < n + 1
        · rw [loopStep_awaiting_limit oracle workerOut stepLimit st n _ hd hne hl]
          exact runLoop_aborted_terminal _ _ _ _ _ _ _
        · rw [loopStep_awaiting_run oracle workerOut stepLimit st n _ hd hne hl,
            runLoop_succ, loopStep_running_eq]
          exact ih _ rfl (show stepLimit ≤ (n + 1) + m by omega)
      · rw [loopStep_awaiting_finish oracle workerOut stepLimit st n hd]
        exact runLoop_finished_terminal _ _ _ _ _ _

theorem loopStep_next_inv (oracle : List Turn → String)
    (workerOut : String → AgentState → String) (stepLimit : Nat)
    (s : LoopState) (h : NextInv s) :
    NextInv (loopStep oracle workerOut stepLimit s) := by
  rcases s with ⟨ph, st, n⟩
  cases ph with
  | awaiting =>
      rcases conditionalMap_cases (oracle st.messages) with hd | ⟨hm, hd, hne⟩ | ⟨hf, hd⟩
      · rw [loopStep_awaiting_invalid oracle workerOut stepLimit st n hd]
        intro hab
        simp [Phase.isAborted] at hab
      · by_cases hl : stepLimit < n + 1
        · rw [loopStep_awaiting_limit oracle workerOut stepLimit st n _ hd hne hl]
          intro hab
          simp [Phase.isAborted] at hab
        · rw [loopStep_awaiting_run oracle workerOut stepLimit st n _ hd hne hl]
          intro _ v hv
          have hveq : oracle st.messages = v := by
            simpa [applyUpdate, supervisorUpdate] using hv
          subst hveq
          exact List.mem_cons_of_mem _ hm
      · rw [loopStep_awaiting_finish oracle workerOut stepLimit st n hd]
        intro _ v hv
        have hveq : oracle st.messages = v := by
          simpa [applyUpdate, supervisorUpdate] using hv
        subst hveq
        rw [hf]
        exact List.mem_cons_self _ _
  | running w =>
      rw [loopStep_running_eq]
      intro _ v hv
      have hv' : st.next = some v := by
        simpa [applyUpdate, agent_node] using hv
      exact h rfl v hv'
  | finished => exact h
  | aborted r => exact h

theorem runLoop_next_inv (oracle : List Turn → String)
    (workerOut : String → AgentState → String) (stepLimit : Nat) (n : Nat)
    (s : LoopState) (h : NextInv s) :
    NextInv (runLoop oracle workerOut stepLimit n s) := by
  induction n generalizing s with
  | zero => exact h
  | succ n ih =>
      rw [runLoop_succ]
      exact ih _ (loopStep_next_inv oracle workerOut stepLimit s h)

theorem extractJobIds_eq_filter_map (jobs : List JobPosting) :
    extractJobIds jobs = (jobs.filter keepsPosting).map postingId := by
  induction jobs with
  | nil => rfl
  | cons j rest ih =>
      rcases j with ⟨_ | urn⟩
      · simpa [extractJobIds, keepsPosting, List.filterMap_cons,
          List.filter_cons] using ih
      · by_cases hk : (pySplit urn "jobPosting:").length ≥ 2
        · simpa [extractJobIds, keepsPosting, postingId, List.filterMap_cons,
            List.filter_cons, hk] using ih
        · simpa [extractJobIds, keepsPosting, postingId, List.filterMap_cons,
            List.filter_cons, hk] using ih

/-! Claim theorems. -/

/-- C1 (termination): as long as the oracle only ever emits decisions from
the closed set, iterating the dispatch loop from the seeded initial state
reaches a terminal phase (FINISHED or ABORTED) within the configured step
limit — two transitions per worker round plus the final decision — and the
worker-step counter never exceeds the configured ceiling (the default
configuration being recursion_limit = 100), so the loop never runs
unboundedly many worker steps. -/
theorem dispatch_loop_terminates_within_step_limit
    (oracle : List Turn → String) (workerOut : String → AgentState → String)
    (stepLimit : Nat) (query : String)
    (hvalid : ∀ ms, oracle ms ∈ options) :
    (runLoop oracle workerOut stepLimit (2 * stepLimit + 1)
        (initLoop query)).phase.isTerminal = true ∧
    ∀ n, (runLoop oracle workerOut stepLimit n (initLoop query)).steps ≤
      stepLimit := by
  constructor
  · exact runLoop_terminal_of_awaiting oracle workerOut stepLimit stepLimit
      (initLoop query) rfl (by simp [initLoop])
  · intro n
    exact runLoop_steps_le oracle workerOut stepLimit n _ (Nat.zero_le _)

/-- Witness for C1: a step limit of 3 with an oracle that keeps selecting
Searcher; the loop is terminal after 7 transitions and never exceeds 3
worker steps. -/
theorem dispatch_loop_terminates_witness :
    (runLoop (fun _ => "Searcher") (fun _ _ => "found jobs") 3 7
        (initLoop "find jobs")).phase.isTerminal = true ∧
    ∀ n, (runLoop (fun _ => "Searcher") (fun _ _ => "found jobs") 3 n
        (initLoop "find jobs")).steps ≤ 3 :=
  dispatch_loop_terminates_within_step_limit (fun _ => "Searcher")
    (fun _ _ => "found jobs") 3 "find jobs"
    (fun _ => show "Searcher" ∈ options by decide)

/-- C2 (decision validation): when the oracle's decision lies outside the
closed set FINISH, Analyzer, Generator, Searcher, the router transitions to
ABORTED with the invalid-decision reason; in particular it does not reach
FINISHED and does not route to any worker. -/
theorem invalid_decision_aborts_router (oracle : List Turn → String)
    (workerOut : String → AgentState → String) (stepLimit : Nat)
    (st : AgentState) (n : Nat)
    (hinvalid : oracle st.messages ∉ options) :
    (loopStep oracle workerOut stepLimit ⟨Phase.awaiting, st, n⟩).phase =
      Phase.aborted "invalid decision" ∧
    (loopStep oracle workerOut stepLimit ⟨Phase.awaiting, st, n⟩).phase ≠
      Phase.finished ∧
    ∀ w, (loopStep oracle workerOut stepLimit ⟨Phase.awaiting, st, n⟩).phase ≠
      Phase.running w := by
  have hd : conditionalMap (oracle st.messages) = none := by
    rcases conditionalMap_cases (oracle st.messages) with hd | ⟨hm, _, _⟩ | ⟨hf, _⟩
    · exact hd
    · exact absurd (List.mem_cons_of_mem _ hm) hinvalid
    · exact absurd (show oracle st.messages ∈ options by
        rw [hf]; exact List.mem_cons_self _ _) hinvalid
  rw [loopStep_awaiting_invalid oracle workerOut stepLimit st n hd]
  exact ⟨rfl, by simp, fun w => by simp⟩

/-- Witness for C2: the decision Unknown aborts the router with the
invalid-decision reason. -/
theorem invalid_decision_aborts_witness :
    (loopStep (fun _ => "Unknown") (fun _ _ => "") 100
        ⟨Phase.awaiting, ⟨none, [⟨none, "hi"⟩], none⟩, 0⟩).phase =
      Phase.aborted "invalid decision" :=
  (invalid_decision_aborts_router (fun _ => "Unknown") (fun _ _ => "") 100
    ⟨none, [⟨none, "hi"⟩], none⟩ 0 (by decide)).1

/-- C3 (normalization): flatten_output is a pure function of its input
dictionary, and on the nested backend shape binding args to the inner
dictionary binding next to a worker name w it yields the flat dictionary
binding next to w, so the routing lambda reading the next key obtains the
canonical decision value w. -/
theorem flatten_output_normalizes_nested_decision (w : String)
    (hw : w ∈ members) :
    flatten_output [("args", PyVal.dict [("next", PyVal.str w)])] =
      [("next", PyVal.str w)] ∧
    dictLookup (flatten_output [("args", PyVal.dict [("next", PyVal.str w)])])
      "next" = some (PyVal.str w) :=
  ⟨rfl, rfl⟩

/-- Witness for C3: the Searcher decision nested under args is flattened to
the canonical flat shape. -/
theorem flatten_output_normalizes_witness :
    flatten_output [("args", PyVal.dict [("next", PyVal.str "Searcher")])] =
      [("next", PyVal.str "Searcher")] ∧
    dictLookup
      (flatten_output [("args", PyVal.dict [("next", PyVal.str "Searcher")])])
      "next" = some (PyVal.str "Searcher") :=
  flatten_output_normalizes_nested_decision "Searcher" (by decide)

/-- C4 (history monotonicity): across any number of dispatch-loop
transitions from any configuration, the previous message history is an
initial segment of the new one — some suffix of new turns is appended to it
unchanged — and in particular its length never decreases; no turn is
removed or reordered. -/
theorem history_append_only (oracle : List Turn → String)
    (workerOut : String → AgentState → String) (stepLimit : Nat) (n : Nat)
    (s : LoopState) :
    ∃ t, (runLoop oracle workerOut stepLimit n s).state.messages =
        s.state.messages ++ t ∧
      s.state.messages.length ≤
        (runLoop oracle workerOut stepLimit n s).state.messages.length := by
  obtain ⟨t, ht⟩ := runLoop_messages_extend oracle workerOut stepLimit n s
  refine ⟨t, ht, ?_⟩
  rw [ht, List.length_append]
  omega

/-- C5 (adapter frame): applying the worker adapter's update appends
exactly one turn to the message history, that turn carries the invoking
worker's name, and the input and next keys of the shared state are left
untouched. -/
theorem agent_node_appends_single_attributed_turn (st : AgentState)
    (agentInvoke : AgentState → String) (name : String) :
    applyUpdate st (agent_node st agentInvoke name) =
      { st with messages := st.messages ++ [⟨some name, agentInvoke st⟩] } ∧
    (applyUpdate st (agent_node st agentInvoke name)).messages.length =
      st.messages.length + 1 ∧
    (applyUpdate st (agent_node st agentInvoke name)).input = st.input ∧
    (applyUpdate st (agent_node st agentInvoke name)).next = st.next :=
  ⟨rfl, by simp [applyUpdate, agent_node], rfl, rfl⟩

/-- C6 (routing-field invariant): in every configuration reachable from
the initial one whose control state is not ABORTED, any value held by the
next key lies in the closed set FINISH, Analyzer, Generator, Searcher; a
value outside the set occurs only in the ABORTED contract-violation state,
never in a routable one. -/
theorem next_worker_in_closed_set (oracle : List Turn → String)
    (workerOut : String → AgentState → String) (stepLimit : Nat)
    (query : String) (n : Nat) (v : String)
    (hab : (runLoop oracle workerOut stepLimit n
      (initLoop query)).phase.isAborted = false)
    (hv : (runLoop oracle workerOut stepLimit n
      (initLoop query)).state.next = some v) :
    v ∈ options := by
  have hinv : NextInv (runLoop oracle workerOut stepLimit n (initLoop query)) :=
    runLoop_next_inv oracle workerOut stepLimit n (initLoop query)
      (by intro _ u hu; simp [initLoop] at hu)
  exact hinv hab v hv

/-- Witness for C6: after one transition under an oracle answering FINISH,
the loop is in the FINISHED state with the next key holding FINISH, which
the theorem places in the closed set. -/
theorem next_worker_in_closed_set_witness : "FINISH" ∈ options :=
  next_worker_in_closed_set (fun _ => "FINISH") (fun _ _ => "") 100 "hello"
    1 "FINISH" (by decide) (by decide)

/-- C7 (extraction totality): the document-extraction path — extract_cv
around load_cv — is a total function of the loader outcome: it always
returns a dictionary whose content key holds a string and never propagates
an exception; on loader success that string is the concatenated page text,
and on loader failure it is the empty failure marker produced by load_cv
swallowing the loader's exception. -/
theorem extract_cv_never_raises_into_core :
    (∀ r : Except String (List String), ∃ s,
      cv_extraction_path r = [("content", PyVal.str s)]) ∧
    (∀ pages, cv_extraction_path (Except.ok pages) =
      [("content", PyVal.str (String.join pages))]) ∧
    (∀ e, cv_extraction_path (Except.error e) =
      [("content", PyVal.str "")]) :=
  ⟨fun r => ⟨load_cv r, rfl⟩, fun _ => rfl, fun _ => rfl⟩

/-- C9 (loader failure shape): when the PDF loader fails, load_cv returns
the empty string, so the extraction path yields empty content; the
distinct error-marker string is produced by extract_cv only when the
load_cv call itself raises, an outcome load_cv's own handler prevents for
loader failures (every normal return of load_cv flows through the ok
branch of extract_cv). -/
theorem loader_failure_yields_empty_content :
    (∀ e, load_cv (Except.error e) = "") ∧
    (∀ e, cv_extraction_path (Except.error e) =
      [("content", PyVal.str "")]) ∧
    (∀ t, extract_cv (Except.ok t) = [("content", PyVal.str t)]) ∧
    (∀ e, extract_cv (Except.error e) =
      [("content", PyVal.str "Error: Could not extract CV content")]) :=
  ⟨fun _ => rfl, fun _ => rfl, fun _ => rfl, fun _ => rfl⟩

/-- Counterexample for C8: when the LinkedIn client failed to initialize
(api is None), get_job_ids raises instead of returning an empty sequence,
and the exception propagates through job_pipeline into the core loop. -/
theorem get_job_ids_raises_uninitialized_cex :
    get_job_ids none "data scientist" "India" none 10 =
      Except.error "LinkedIn API not initialized. Check credentials." ∧
    job_pipeline none (fun _ => []) "data scientist" "India" none 10 =
      Except.error "LinkedIn API not initialized. Check credentials." :=
  ⟨rfl, rfl⟩

/-- C8 as amended: with an initialized client, get_job_ids never raises —
it always returns a result list — and a failing search call is caught and
yields the empty sequence. -/
theorem get_job_ids_failsoft_when_initialized
    (search : SearchParams → Except String (List JobPosting))
    (keywords location_name : String) (job_type : Option String)
    (limit : Nat) :
    (∃ ids, get_job_ids (some search) keywords location_name job_type limit =
      Except.ok ids) ∧
    (∀ e, search ⟨keywords, job_type.bind get_job_type, location_name, limit⟩ =
        Except.error e →
      get_job_ids (some search) keywords location_name job_type limit =
        Except.ok []) := by
  constructor
  · cases h : search ⟨keywords, job_type.bind get_job_type, location_name, limit⟩ with
    | ok postings =>
        exact ⟨extractJobIds postings, by simp only [get_job_ids]; rw [h]⟩
    | error e => exact ⟨[], by simp only [get_job_ids]; rw [h]⟩
  · intro e he
    simp only [get_job_ids]
    rw [he]

/-- Witness for C8 as amended: a search call raising a connection error is
caught and get_job_ids returns the empty list. -/
theorem get_job_ids_failsoft_witness :
    get_job_ids (some (fun _ => Except.error "connection failed"))
      "data scientist" "India" none 10 = Except.ok [] :=
  (get_job_ids_failsoft_when_initialized
    (fun _ => Except.error "connection failed") "data scientist" "India"
    none 10).2 "connection failed" rfl

/-- Counterexample for C10: on a tracking URN containing the separator
twice, the code keeps only the text between the first and second
occurrence, not the whole text after the first occurrence as the claim
words it. -/
theorem job_id_extraction_not_text_after_cex :
    extractJobIds [⟨some "jobPosting:1jobPosting:2"⟩] = ["1"] ∧
    textAfterUrn "jobPosting:1jobPosting:2" = "1jobPosting:2" ∧
    extractJobIds [⟨some "jobPosting:1jobPosting:2"⟩] ≠
      [textAfterUrn "jobPosting:1jobPosting:2"] :=
  ⟨rfl, rfl, by decide⟩

/-- C10 as amended: the extraction keeps exactly the postings whose
trackingUrn is present and contains the separator, in input order, maps
each kept posting to field 1 of splitting the URN on the separator (the
text between its first and second occurrence, or everything after it when
it occurs once), and returns a list no longer than the input. -/
theorem job_id_extraction_characterization (jobs : List JobPosting) :
    extractJobIds jobs = (jobs.filter keepsPosting).map postingId ∧
    (extractJobIds jobs).length ≤ jobs.length := by
  refine ⟨extractJobIds_eq_filter_map jobs, ?_⟩
  rw [extractJobIds_eq_filter_map jobs, List.length_map]
  exact List.length_filter_le _ _

end JobAgent
